import Mathlib

/-!
# Verification of the redsea `Channel` orchestration layer (`src/channel.cc`)

This file gives a shallow embedding of `Channel` from `src/channel.cc` and of
the external collaborators it drives (Group Assembler, Identity Confirmation
Tracker, Error-Rate Averager, Station Interpreter, output stream), together
with theorems about the embedded operations.

Modelling conventions:
* Wall-clock instants (`std::chrono::system_clock::time_point`) are an integer
  tick count; we count ticks in milliseconds — the granularity of every
  duration this code constructs — so an instant is an integer number of
  milliseconds since the epoch, and a default-constructed time point is `0`.
  Subtracting `std::chrono::milliseconds(m)` is integer subtraction.
* The floating-point back-dating expression
  `static_cast<int>(static_cast<double>(k) / 1187.5 * 1e3)` is modelled in
  exact rational arithmetic as the integer truncation `k * 10000 / 11875`
  (these agree for every `k < 19019`; beyond that, double rounding can differ
  from the exact value by one millisecond).
* `float` error-rate arithmetic is modelled as exact rational arithmetic.
* The external collaborators whose sources are not part of this excerpt are
  modelled from the specification; each such definition carries a doc comment
  saying so.  The group-assembly behaviour of the external `BlockStream` is
  abstracted by an oracle stored in its state.
-/

set_option autoImplicit false

namespace Redsea

/-- A wall-clock instant, in milliseconds since the epoch. -/
abbrev Time := ℤ

/-- Output mode selector (`redsea::OutputType`); the code in `channel.cc` only
distinguishes `Hex` from everything else. -/
inductive OutputType where
  | Hex : OutputType
  | JSON : OutputType
deriving DecidableEq, Repr

/-- The configuration surface of `Channel` that `channel.cc` reads:
`options_.timestamp`, `options_.bler`, `options_.output_type`,
`options_.time_format`. -/
structure Options where
  timestamp : Bool
  bler : Bool
  output_type : OutputType
  time_format : String
deriving DecidableEq, Repr

/-- Modelled from the spec: a Group is the unit of decoded protocol data — up
to 4 blocks, an error count, optionally a station identity code (PI), an
optional receive timestamp and an optional error-rate annotation; it is either
empty (no usable blocks) or carries at least one valid block.  The block
contents themselves are out of scope; we keep only their hexadecimal rendering
(`hex`), which is what `printHex` emits. -/
structure Group where
  pi : Option ℕ
  numErrors : ℕ
  time : Option Time
  bler : Option ℚ
  empty : Bool
  hex : String
deriving DecidableEq, Repr, Inhabited

/-- `Group::hasPI()`. -/
def Group.hasPI (g : Group) : Bool := g.pi.isSome

/-- `Group::getPI()`. -/
def Group.getPI (g : Group) : ℕ := g.pi.getD 0

/-- `Group::hasTime()`. -/
def Group.hasTime (g : Group) : Bool := g.time.isSome

/-- `Group::setTime(t)`. -/
def Group.setTime (g : Group) (t : Time) : Group := { g with time := some t }

/-- `Group::getRxTime()`; a group that was never stamped carries the
default-constructed time point, modelled as `0`. -/
def Group.getRxTime (g : Group) : Time := g.time.getD 0

/-- `Group::getNumErrors()`. -/
def Group.getNumErrors (g : Group) : ℕ := g.numErrors

/-- `Group::setAverageBLER(x)`. -/
def Group.setAverageBLER (g : Group) (x : ℚ) : Group := { g with bler := some x }

/-- `Group::isEmpty()`. -/
def Group.isEmpty (g : Group) : Bool := g.empty

/-- The output sink (`std::ostream`): the sequence of chunks written with
`operator<<` and the number of `std::flush` operations performed. -/
structure OStream where
  chunks : List String
  flushes : ℕ
deriving DecidableEq, Repr

/-- `stream << s`. -/
def OStream.write (s : OStream) (x : String) : OStream :=
  { s with chunks := s.chunks ++ [x] }

/-- `stream << std::flush`. -/
def OStream.flush (s : OStream) : OStream :=
  { s with flushes := s.flushes + 1 }

/-- Modelled from the spec: `Group::printHex(stream)` (source not in the
excerpt) emits the group's raw hexadecimal block contents to the stream. -/
def Group.printHex (g : Group) (s : OStream) : OStream := s.write g.hex

/-- Modelled from the spec: `getTimePointString(t, format)` (source not in the
excerpt) renders a formatted timestamp; the exact text is out of scope, only
that it is a deterministic function of the instant and the format. -/
def getTimePointString (t : Time) (format : String) : String :=
  format ++ toString t

/-- Result of one observation fed to the Identity Confirmation Tracker
(`CachedPI::Result`). -/
inductive CachedPI.Result where
  | ChangeConfirmed : CachedPI.Result
  | SpuriousChange : CachedPI.Result
  | NoChange : CachedPI.Result
deriving DecidableEq, Repr

/-- Modelled from the spec: the Identity Confirmation Tracker (`CachedPI`,
source not in the excerpt).  `confirmed` is the currently confirmed identity
code, `candidate` a deviating code seen exactly once since then. -/
structure CachedPI where
  confirmed : Option ℕ
  candidate : Option ℕ
deriving DecidableEq, Repr

/-- The freshly constructed tracker: nothing held. -/
def CachedPI.init : CachedPI := ⟨none, none⟩

/-- Modelled from the spec: one observation.  A code equal to the confirmed
one is `NoChange`; a deviating code seen for the first time is held
provisionally and reported `SpuriousChange`; the same deviating code seen a
second time is adopted and reported `ChangeConfirmed`. -/
def CachedPI.update (s : CachedPI) (code : ℕ) : CachedPI.Result × CachedPI :=
  if s.confirmed = some code then
    (CachedPI.Result.NoChange, { s with candidate := none })
  else if s.candidate = some code then
    (CachedPI.Result.ChangeConfirmed, ⟨some code, none⟩)
  else
    (CachedPI.Result.SpuriousChange, { s with candidate := some code })

/-- `CachedPI::get()`: the currently confirmed code. -/
def CachedPI.get (s : CachedPI) : ℕ := s.confirmed.getD 0

/-- `CachedPI::reset()`. -/
def CachedPI.reset (_ : CachedPI) : CachedPI := CachedPI.init

/-- Window length of the Error-Rate Averager; the spec leaves the exact
bounded-memory parameter open, we fix a window of 12 recent groups. -/
def kNumBlerAverageGroups : ℕ := 12

/-- Modelled from the spec: the Error-Rate Averager (`RunningAverage`, source
not in the excerpt): a bounded-memory running mean of the most recently pushed
values, most recent first. -/
structure RunningAverage where
  values : List ℚ
deriving DecidableEq, Repr

/-- A fresh averager. -/
def RunningAverage.init : RunningAverage := ⟨[]⟩

/-- Push one value, retiring the oldest beyond the window. -/
def RunningAverage.push (a : RunningAverage) (v : ℚ) : RunningAverage :=
  ⟨(v :: a.values).take kNumBlerAverageGroups⟩

/-- The running mean; defined (zero) before anything was pushed. -/
def RunningAverage.getAverage (a : RunningAverage) : ℚ :=
  if a.values.isEmpty then 0 else a.values.sum / a.values.length

/-- Modelled from the spec: the external Station Interpreter (`Station`,
source not in the excerpt): constructed from the options, the channel index
and, for the identity-seeded constructors, the confirmed identity code; it
consumes groups through `updateAndPrint`.  We record the groups it received
in `log`; its own output format is out of scope. -/
structure Station where
  options : Options
  which_channel : ℕ
  pi : Option ℕ
  log : List Group
deriving DecidableEq, Repr

/-- `Station(options, which_channel)` / `Station(options, which_channel, pi)`. -/
def Station.init (options : Options) (which_channel : ℕ) (pi : Option ℕ) : Station :=
  ⟨options, which_channel, pi, []⟩

/-- Modelled from the spec: `Station::updateAndPrint(group, stream)` decodes
the group and prints; we record the handed-over group and leave the stream's
raw-mode content untouched (interpreted output is out of scope). -/
def Station.updateAndPrint (st : Station) (g : Group) (s : OStream) : Station × OStream :=
  ({ st with log := st.log ++ [g] }, s)

/-- A buffer of demodulated bits (`BitBuffer`): the bits plus the wall-clock
instant at which the last bit was captured. -/
structure BitBuffer where
  bits : List Bool
  time_received : Time

/-- Modelled from the spec: the external Group Assembler (`BlockStream`,
source not in the excerpt).  Its bit-to-group behaviour is abstracted by the
oracle `assemble`, giving for each prefix of pushed bits the groups completed
by the last bit of that prefix, and by `flushCurrent`, giving the
force-completed partial group at each prefix.  `ready` is the queue of
completed groups not yet popped; `bitsPushed` the bits pushed so far. -/
structure BlockStream where
  assemble : List Bool → List Group
  flushCurrent : List Bool → Group
  bitsPushed : List Bool
  ready : List Group

/-- `BlockStream::pushBit(bit)`: feed one bit; any groups the assembler
completes on it are appended to the ready queue. -/
def BlockStream.pushBit (bs : BlockStream) (b : Bool) : BlockStream :=
  let bits := bs.bitsPushed ++ [b]
  { bs with bitsPushed := bits, ready := bs.ready ++ bs.assemble bits }

/-- `BlockStream::hasGroupReady()`. -/
def BlockStream.hasGroupReady (bs : BlockStream) : Bool := !bs.ready.isEmpty

/-- `BlockStream::popGroup()`: pop the oldest ready group. -/
def BlockStream.popGroup (bs : BlockStream) : Group × BlockStream :=
  (bs.ready.headD default, { bs with ready := bs.ready.tail })

/-- `BlockStream::flushCurrentGroup()`: force-complete and return the current
partially assembled group (the assembler's internal reset is outside this
model). -/
def BlockStream.flushCurrentGroup (bs : BlockStream) : Group :=
  bs.flushCurrent bs.bitsPushed

/-- The `Channel` state: `channel.cc`'s member variables. -/
structure Channel where
  options : Options
  which_channel : ℕ
  output : OStream
  block_stream : BlockStream
  station : Station
  cached_pi : CachedPI
  bler_average : RunningAverage
  last_group_rx_time : Time

/-- `Channel::Channel(options, which_channel, output_stream)`: the production
constructor; tracker and averager start empty, the watermark is the
default-constructed time point.  The assembler oracle stands in for
`block_stream_(options)`. -/
def Channel.init (options : Options) (which_channel : ℕ) (output : OStream)
    (block_stream : BlockStream) : Channel :=
  { options := options
    which_channel := which_channel
    output := output
    block_stream := block_stream
    station := Station.init options which_channel none
    cached_pi := CachedPI.init
    bler_average := RunningAverage.init
    last_group_rx_time := 0 }

/-- `Channel::Channel(options, output_stream, pi)`: the testing constructor
(PI already known): the station is seeded with the identity and the tracker is
fed the identity twice (`cached_pi_.update(pi)` twice).  The C++ leaves
`which_channel_` uninitialized here; we model it as `0`, matching the `0`
passed to the Station. -/
def Channel.initWithPI (options : Options) (output : OStream)
    (block_stream : BlockStream) (pi : ℕ) : Channel :=
  { options := options
    which_channel := 0
    output := output
    block_stream := block_stream
    station := Station.init options 0 (some pi)
    cached_pi := ((CachedPI.init.update pi).2.update pi).2
    bler_average := RunningAverage.init
    last_group_rx_time := 0 }

/-- `channel.cc` lines 87–97: Mode-A timestamping.  If timestamping is on and
the group carries no time yet, stamp it with the sampled wall-clock instant
`now` (injected here, `std::chrono::system_clock::now()` in the source), clamp
the stamp to the watermark if `now` lies before it, and set the watermark to
`now`. -/
def Channel.stampTime (ch : Channel) (now : Time) (g : Group) : Channel × Group :=
  if ch.options.timestamp && !g.hasTime then
    let g1 := g.setTime now
    let g2 := if now < ch.last_group_rx_time then g1.setTime ch.last_group_rx_time else g1
    ({ ch with last_group_rx_time := now }, g2)
  else (ch, g)

/-- `channel.cc` lines 99–102: if BLER computation is on, push this group's
error count over 4 into the averager and annotate the group with 100 times
the running average. -/
def Channel.blerStep (ch : Channel) (g : Group) : Channel × Group :=
  if ch.options.bler then
    let b := ch.bler_average.push ((g.getNumErrors : ℚ) / 4)
    ({ ch with bler_average := b }, g.setAverageBLER (100 * b.getAverage))
  else (ch, g)

/-- `channel.cc` lines 104–117: if the group carries a PI code, feed it to the
tracker; on `ChangeConfirmed` replace the Station with a fresh one seeded with
the newly confirmed code. -/
def Channel.piStep (ch : Channel) (g : Group) : Channel :=
  if g.hasPI then
    let u := ch.cached_pi.update g.getPI
    match u.1 with
    | CachedPI.Result.ChangeConfirmed =>
        { ch with cached_pi := u.2
                  station := Station.init ch.options ch.which_channel (some u.2.get) }
    | CachedPI.Result.SpuriousChange => { ch with cached_pi := u.2 }
    | CachedPI.Result.NoChange => { ch with cached_pi := u.2 }
  else ch

/-- `channel.cc` lines 119–128: route the group — in Hex mode print non-empty
groups (hex blocks, optional space + formatted timestamp, newline, flush);
otherwise hand the group to the Station Interpreter. -/
def Channel.routeStep (ch : Channel) (g : Group) : Channel :=
  if ch.options.output_type = OutputType.Hex then
    if !g.isEmpty then
      let s1 := g.printHex ch.output
      let s2 := if ch.options.timestamp then
          (s1.write " ").write (getTimePointString g.getRxTime ch.options.time_format)
        else s1
      { ch with output := (s2.write "\n").flush }
    else ch
  else
    let r := ch.station.updateAndPrint g ch.output
    { ch with station := r.1, output := r.2 }

/-- `Channel::processGroup(group)` (`channel.cc` lines 86–129), with the
wall-clock sample injected as `now`: timestamping, BLER, PI handling, then
routing. -/
def Channel.processGroup (ch : Channel) (now : Time) (g : Group) : Channel :=
  let s := ch.stampTime now g
  let b := s.1.blerStep s.2
  (b.1.piStep b.2).routeStep b.2

/-- The group value that reaches the routing stage of `processGroup` (the
`group` local after lines 87–102 have acted on it). -/
def Channel.routedGroup (ch : Channel) (now : Time) (g : Group) : Group :=
  ((ch.stampTime now g).1.blerStep (ch.stampTime now g).2).2

/-- `Channel::processBit(bit)` (`channel.cc` lines 52–57), with the wall-clock
sample for a possible Mode-A stamp injected as `now`. -/
def Channel.processBit (ch : Channel) (now : Time) (bit : Bool) : Channel :=
  let bs := ch.block_stream.pushBit bit
  if bs.hasGroupReady then
    let p := bs.popGroup
    Channel.processGroup { ch with block_stream := p.2 } now p.1
  else { ch with block_stream := bs }

/-- One iteration of the `Channel::processBits` loop (`channel.cc` lines
60–82) at index `i_bit`: push the bit; if a group completed, back-date it from
the buffer's capture instant by the bit-rate formula, clamp the result to the
watermark, stamp, process, and update the watermark to the (clamped) stamp. -/
def Channel.processBitsStep (ch : Channel) (buffer : BitBuffer) (i_bit : ℕ) : Channel :=
  let bs := ch.block_stream.pushBit (buffer.bits.getD i_bit false)
  if bs.hasGroupReady then
    let p := bs.popGroup
    let raw : Time := buffer.time_received -
      (((buffer.bits.length - 1 - i_bit) * 10000 / 11875 : ℕ) : ℤ)
    let group_time := if raw < ch.last_group_rx_time then ch.last_group_rx_time else raw
    let ch2 := Channel.processGroup { ch with block_stream := p.2 } 0 (p.1.setTime group_time)
    { ch2 with last_group_rx_time := group_time }
  else { ch with block_stream := bs }

/-- `Channel::processBits(buffer)` (`channel.cc` lines 59–83): the loop over
all bit offsets of the buffer. -/
def Channel.processBits (ch : Channel) (buffer : BitBuffer) : Channel :=
  (List.range buffer.bits.length).foldl (fun c i => c.processBitsStep buffer i) ch

/-- `Channel::flush()` (`channel.cc` lines 132–136), with the wall-clock
sample for a possible Mode-A stamp injected as `now`: force-complete the
pending group and process it when it is non-empty. -/
def Channel.flush (ch : Channel) (now : Time) : Channel :=
  let last_group := ch.block_stream.flushCurrentGroup
  if !last_group.isEmpty then ch.processGroup now last_group else ch

/-- `Channel::resetPI()` (`channel.cc` lines 143–145). -/
def Channel.resetPI (ch : Channel) : Channel :=
  { ch with cached_pi := ch.cached_pi.reset }

/-! ### Concrete fixtures used to evaluate the model at specific inputs -/

/-- A non-empty group with no identity code and no timestamp. -/
def gPlain : Group := ⟨none, 0, none, none, false, "693E0520E42045E7"⟩

/-- A second non-empty group, distinct from `gPlain`. -/
def gSecond : Group := ⟨none, 2, none, none, false, "693E2520E42245E7"⟩

/-- An empty group (no usable blocks). -/
def gEmptyFix : Group := ⟨none, 0, none, none, true, ""⟩

/-- An empty output sink. -/
def outEmpty : OStream := ⟨[], 0⟩

/-- An assembler oracle that never completes a group and holds an empty
pending group. -/
def bsNone : BlockStream := ⟨fun _ => [], fun _ => gEmptyFix, [], []⟩

/-- An assembler oracle that completes exactly `gPlain` on the very first
pushed bit. -/
def bsOne : BlockStream :=
  ⟨fun bits => if bits.length = 1 then [gPlain] else [], fun _ => gEmptyFix, [], []⟩

/-- An assembler oracle that reports two groups ready after the very first
pushed bit. -/
def bsTwoReady : BlockStream :=
  ⟨fun bits => if bits.length = 1 then [gPlain, gSecond] else [], fun _ => gEmptyFix, [], []⟩

/-- An assembler oracle with a non-empty pending group (`gPlain`). -/
def bsPending : BlockStream := ⟨fun _ => [], fun _ => gPlain, [], []⟩

/-- Options: timestamping on, BLER off, interpreted (non-Hex) output. -/
def optsA : Options := ⟨true, false, OutputType.JSON, "f"⟩

/-- Options: timestamping off, BLER off, interpreted (non-Hex) output. -/
def optsB : Options := ⟨false, false, OutputType.JSON, "f"⟩

/-- Options: timestamping on, BLER off, Hex output. -/
def optsHexTS : Options := ⟨true, false, OutputType.Hex, "f"⟩

/-- Options: timestamping off, BLER off, Hex output. -/
def optsHexNoTS : Options := ⟨false, false, OutputType.Hex, "f"⟩

/-- Options: timestamping off, BLER on, interpreted (non-Hex) output. -/
def optsBler : Options := ⟨false, true, OutputType.JSON, "f"⟩

/-- A non-empty group carrying identity code 2. -/
def gPI2 : Group := ⟨some 2, 0, none, none, false, "0002052044454D4F"⟩

/-- A channel whose tracker holds confirmed code 1 with pending candidate 2,
so one more observation of 2 confirms the change. -/
def chC6 : Channel :=
  { Channel.init optsB 0 outEmpty bsNone with cached_pi := ⟨some 1, some 2⟩ }

/-- A two-bit buffer captured ending at instant 7 ms. -/
def bufTwoBits : BitBuffer := ⟨[false, false], 7⟩

/-- A one-bit buffer captured ending at instant 3 ms. -/
def bufOneBit : BitBuffer := ⟨[true], 3⟩

/-- A one-bit buffer captured ending at instant 0 ms. -/
def bufZero : BitBuffer := ⟨[false], 0⟩

/-- A Mode-B channel whose assembler completes `gPlain` on the first bit. -/
def chModeB : Channel := Channel.init optsA 0 outEmpty bsOne

/-- The same Mode-B channel with its watermark already at 5 ms. -/
def chHighWatermark : Channel :=
  { Channel.init optsA 0 outEmpty bsOne with last_group_rx_time := 5 }

/-! ### Preservation lemmas for the individual steps of `processGroup` -/

/-- `stampTime` touches only the watermark of the channel. -/
theorem stampTime_fields (ch : Channel) (now : Time) (g : Group) :
    (ch.stampTime now g).1.options = ch.options ∧
    (ch.stampTime now g).1.which_channel = ch.which_channel ∧
    (ch.stampTime now g).1.output = ch.output ∧
    (ch.stampTime now g).1.block_stream = ch.block_stream ∧
    (ch.stampTime now g).1.station = ch.station ∧
    (ch.stampTime now g).1.cached_pi = ch.cached_pi ∧
    (ch.stampTime now g).1.bler_average = ch.bler_average := by
  unfold Channel.stampTime
  by_cases h : (ch.options.timestamp && !g.hasTime) = true <;> simp [h]

/-- `stampTime` changes only the group's timestamp field. -/
theorem stampTime_group_fields (ch : Channel) (now : Time) (g : Group) :
    (ch.stampTime now g).2.pi = g.pi ∧
    (ch.stampTime now g).2.numErrors = g.numErrors ∧
    (ch.stampTime now g).2.bler = g.bler ∧
    (ch.stampTime now g).2.empty = g.empty ∧
    (ch.stampTime now g).2.hex = g.hex := by
  unfold Channel.stampTime
  by_cases h : (ch.options.timestamp && !g.hasTime) = true <;>
    by_cases h2 : now < ch.last_group_rx_time <;>
    simp [h, h2, Group.setTime]

/-- `blerStep` touches only the error-rate averager of the channel. -/
theorem blerStep_fields (ch : Channel) (g : Group) :
    (ch.blerStep g).1.options = ch.options ∧
    (ch.blerStep g).1.which_channel = ch.which_channel ∧
    (ch.blerStep g).1.output = ch.output ∧
    (ch.blerStep g).1.block_stream = ch.block_stream ∧
    (ch.blerStep g).1.station = ch.station ∧
    (ch.blerStep g).1.cached_pi = ch.cached_pi ∧
    (ch.blerStep g).1.last_group_rx_time = ch.last_group_rx_time := by
  unfold Channel.blerStep
  by_cases h : ch.options.bler = true <;> simp [h]

/-- `blerStep` changes only the group's error-rate annotation. -/
theorem blerStep_group_fields (ch : Channel) (g : Group) :
    (ch.blerStep g).2.pi = g.pi ∧
    (ch.blerStep g).2.numErrors = g.numErrors ∧
    (ch.blerStep g).2.time = g.time ∧
    (ch.blerStep g).2.empty = g.empty ∧
    (ch.blerStep g).2.hex = g.hex := by
  unfold Channel.blerStep
  by_cases h : ch.options.bler = true <;> simp [h, Group.setAverageBLER]

/-- `piStep` touches only the tracker and the station. -/
theorem piStep_fields (ch : Channel) (g : Group) :
    (ch.piStep g).options = ch.options ∧
    (ch.piStep g).which_channel = ch.which_channel ∧
    (ch.piStep g).output = ch.output ∧
    (ch.piStep g).block_stream = ch.block_stream ∧
    (ch.piStep g).bler_average = ch.bler_average ∧
    (ch.piStep g).last_group_rx_time = ch.last_group_rx_time := by
  unfold Channel.piStep
  by_cases h : g.hasPI = true <;> simp [h]
  rcases hres : (ch.cached_pi.update g.getPI).1 <;> simp [hres]

/-- `routeStep` touches only the output sink and the station. -/
theorem routeStep_fields (ch : Channel) (g : Group) :
    (ch.routeStep g).options = ch.options ∧
    (ch.routeStep g).which_channel = ch.which_channel ∧
    (ch.routeStep g).block_stream = ch.block_stream ∧
    (ch.routeStep g).cached_pi = ch.cached_pi ∧
    (ch.routeStep g).bler_average = ch.bler_average ∧
    (ch.routeStep g).last_group_rx_time = ch.last_group_rx_time := by
  unfold Channel.routeStep
  by_cases h : ch.options.output_type = OutputType.Hex <;>
    by_cases h2 : (!g.isEmpty) = true <;>
    simp [h, h2, Station.updateAndPrint]

/-- `processGroup` never touches the Group Assembler. -/
theorem processGroup_block_stream (ch : Channel) (now : Time) (g : Group) :
    (ch.processGroup now g).block_stream = ch.block_stream := by
  unfold Channel.processGroup
  rw [(routeStep_fields _ _).2.2.1, (piStep_fields _ _).2.2.2.1,
    (blerStep_fields _ _).2.2.2.1, (stampTime_fields _ _ _).2.2.2.1]

/-! ### Claim theorems -/

/-- C1: the claim says that with timestamp stamping enabled and no pre-assigned
receive times, the timestamps emitted by `processGroup` form a non-decreasing
sequence regardless of the order of the sampled wall-clock instants, because
the watermark is updated after every group.  The code contradicts its own
comment ("We want to make sure that the time stays monotonic", lines 91–92):
line 96 stores the raw sample `now` in the watermark even when the emitted
stamp was clamped.  Evaluating the model at wall-clock samples 100, 50, 80 ms,
the three groups are emitted with timestamps 100, 100, 80 — a decreasing
sequence. -/
theorem C1_modeA_emitted_timestamps_can_decrease :
    ((((Channel.init optsA 0 outEmpty bsNone).processGroup 100 gPlain).processGroup 50
        gPlain).processGroup 80 gPlain).station.log.map Group.time =
      [some 100, some 100, some 80] ∧ ¬ ((100 : ℚ) ≤ (80 : ℚ)) := by
  decide

/-- C4 (counterexample): the claim says an empty group is neither printed in
raw-hex mode nor handed to the Station Interpreter.  In interpreted (non-Hex)
mode, `channel.cc` line 127 hands every group, including empty ones, to
`station_.updateAndPrint`: processing an empty group puts it in the
interpreter's input log. -/
theorem C4_empty_group_reaches_interpreter :
    gEmptyFix.isEmpty = true ∧
    ((Channel.init optsB 0 outEmpty bsNone).processGroup 0 gEmptyFix).station.log =
      [gEmptyFix] := by
  decide

/-- C4 (amended): an empty group is dropped before the raw-hex output path —
in Hex mode it produces no output at all — but in interpreted mode every
group, empty ones included, is handed to the Station Interpreter. -/
theorem C4_empty_groups_dropped_only_in_hex_mode (ch : Channel) (g : Group)
    (he : g.isEmpty = true) :
    (ch.options.output_type = OutputType.Hex → ch.routeStep g = ch) ∧
    (ch.options.output_type ≠ OutputType.Hex →
      (ch.routeStep g).station.log = ch.station.log ++ [g] ∧
      (ch.routeStep g).output = ch.output) := by
  unfold Channel.routeStep
  constructor
  · intro h; simp [h, he]
  · intro h; simp [h, Station.updateAndPrint]

/-- Witness for C4 (amended): an empty group leaves a Hex-mode channel
unchanged, and is appended to the interpreter log of a non-Hex channel. -/
theorem C4_amended_witness :
    gEmptyFix.isEmpty = true ∧
    (Channel.init optsHexTS 0 outEmpty bsNone).routeStep gEmptyFix =
      Channel.init optsHexTS 0 outEmpty bsNone ∧
    ((Channel.init optsB 0 outEmpty bsNone).routeStep gEmptyFix).station.log =
      (Channel.init optsB 0 outEmpty bsNone).station.log ++ [gEmptyFix] :=
  ⟨by decide,
   (C4_empty_groups_dropped_only_in_hex_mode (Channel.init optsHexTS 0 outEmpty bsNone)
       gEmptyFix (by decide)).1 (by decide),
   ((C4_empty_groups_dropped_only_in_hex_mode (Channel.init optsB 0 outEmpty bsNone)
       gEmptyFix (by decide)).2 (by decide)).1⟩

/-- C7: the testing constructor (PI already known) seeds the Identity
Confirmation Tracker by feeding the code to its update operation exactly twice
(`cached_pi_.update(pi)` twice, lines 48–49), which leaves the code confirmed:
a further observation of the same code reports `NoChange`. -/
theorem C7_test_constructor_seeds_tracker_twice (options : Options) (output : OStream)
    (bs : BlockStream) (pi : ℕ) :
    (Channel.initWithPI options output bs pi).cached_pi =
      ((CachedPI.init.update pi).2.update pi).2 ∧
    (Channel.initWithPI options output bs pi).cached_pi.confirmed = some pi ∧
    ((Channel.initWithPI options output bs pi).cached_pi.update pi).1 =
      CachedPI.Result.NoChange := by
  refine ⟨rfl, ?_, ?_⟩ <;> simp [Channel.initWithPI, CachedPI.update, CachedPI.init]

/-- C5: `flush` force-completes the assembler's pending group and processes
it through `processGroup` exactly when it is non-empty; with nothing pending
(an empty force-completed group) the channel — output, tracker, averager and
all — is left unchanged. -/
theorem C5_flush_processes_pending_iff_nonempty (ch : Channel) (now : Time) :
    (ch.block_stream.flushCurrentGroup.isEmpty = true → ch.flush now = ch) ∧
    (ch.block_stream.flushCurrentGroup.isEmpty = false →
      ch.flush now = ch.processGroup now ch.block_stream.flushCurrentGroup) := by
  unfold Channel.flush
  constructor <;> intro h <;> simp [h]

/-- Witness for C5: with an empty pending group, `flush` is the identity; with
the non-empty pending group `gPlain`, `flush` equals one `processGroup` call
on it. -/
theorem C5_flush_witness :
    (Channel.init optsA 0 outEmpty bsNone).block_stream.flushCurrentGroup.isEmpty = true ∧
    (Channel.init optsA 0 outEmpty bsNone).flush 0 = Channel.init optsA 0 outEmpty bsNone ∧
    (Channel.init optsA 0 outEmpty bsPending).block_stream.flushCurrentGroup.isEmpty = false ∧
    (Channel.init optsA 0 outEmpty bsPending).flush 0 =
      (Channel.init optsA 0 outEmpty bsPending).processGroup 0
        (Channel.init optsA 0 outEmpty bsPending).block_stream.flushCurrentGroup :=
  ⟨by decide,
   (C5_flush_processes_pending_iff_nonempty (Channel.init optsA 0 outEmpty bsNone) 0).1
     (by decide),
   by decide,
   (C5_flush_processes_pending_iff_nonempty (Channel.init optsA 0 outEmpty bsPending) 0).2
     (by decide)⟩

/-- C6: the identity-handling step of `processGroup` (lines 104–117) consults
the tracker only when the group carries an identity code; on `ChangeConfirmed`
the Station is replaced by a freshly constructed one seeded with the newly
confirmed code, on any other result the Station is kept, and in all cases the
remaining channel state (output, assembler, averager, watermark, options) is
untouched. -/
theorem C6_pi_step_behaviour (ch : Channel) (g : Group) :
    (g.pi = none → ch.piStep g = ch) ∧
    (∀ p : ℕ, g.pi = some p →
      (ch.piStep g).cached_pi = (ch.cached_pi.update p).2 ∧
      ((ch.cached_pi.update p).1 = CachedPI.Result.ChangeConfirmed →
        (ch.piStep g).station =
          Station.init ch.options ch.which_channel (some ((ch.cached_pi.update p).2.get))) ∧
      ((ch.cached_pi.update p).1 ≠ CachedPI.Result.ChangeConfirmed →
        (ch.piStep g).station = ch.station) ∧
      (ch.piStep g).output = ch.output ∧
      (ch.piStep g).block_stream = ch.block_stream ∧
      (ch.piStep g).bler_average = ch.bler_average ∧
      (ch.piStep g).last_group_rx_time = ch.last_group_rx_time ∧
      (ch.piStep g).options = ch.options ∧
      (ch.piStep g).which_channel = ch.which_channel) := by
  constructor
  · intro h
    unfold Channel.piStep
    simp [Group.hasPI, h]
  · intro p hp
    have hhas : g.hasPI = true := by simp [Group.hasPI, hp]
    have hget : g.getPI = p := by simp [Group.getPI, hp]
    unfold Channel.piStep
    rcases hres : (ch.cached_pi.update g.getPI).1 <;>
      simp [hhas, hget, hres, hget ▸ hres]

/-- Witness for C6: on the channel whose tracker holds candidate 2, a group
carrying code 2 confirms the change, replacing the Station with a fresh one
seeded with code 2 and advancing the tracker. -/
theorem C6_pi_step_witness :
    gPI2.pi = some 2 ∧
    (chC6.cached_pi.update 2).1 = CachedPI.Result.ChangeConfirmed ∧
    (chC6.piStep gPI2).station =
      Station.init chC6.options chC6.which_channel (some ((chC6.cached_pi.update 2).2.get)) ∧
    (chC6.piStep gPI2).cached_pi = (chC6.cached_pi.update 2).2 :=
  ⟨by decide, by decide,
   ((C6_pi_step_behaviour chC6 gPI2).2 2 (by decide)).2.1 (by decide),
   ((C6_pi_step_behaviour chC6 gPI2).2 2 (by decide)).1⟩

/-- C8: in Hex mode a non-empty group writes its hexadecimal block values, a
single space and the formatted timestamp when timestamping is enabled, and a
newline; the sink is flushed once; with timestamping disabled the line is the
hex blocks and the newline only. -/
theorem C8_hex_mode_output_format (ch : Channel) (g : Group)
    (hmode : ch.options.output_type = OutputType.Hex) (hne : g.isEmpty = false) :
    (ch.routeStep g).output.chunks =
      ch.output.chunks ++
        (if ch.options.timestamp then
          [g.hex, " ", getTimePointString g.getRxTime ch.options.time_format, "\n"]
        else [g.hex, "\n"]) ∧
    (ch.routeStep g).output.flushes = ch.output.flushes + 1 := by
  unfold Channel.routeStep
  by_cases hts : ch.options.timestamp = true <;>
    simp [hmode, hne, hts, Group.printHex, OStream.write, OStream.flush]

/-- Witness for C8: concrete output lines for a Hex channel with and without
timestamping. -/
theorem C8_hex_mode_witness :
    (Channel.init optsHexTS 0 outEmpty bsNone).options.output_type = OutputType.Hex ∧
    gPlain.isEmpty = false ∧
    ((Channel.init optsHexTS 0 outEmpty bsNone).routeStep gPlain).output.chunks =
      [gPlain.hex, " ", getTimePointString gPlain.getRxTime "f", "\n"] ∧
    ((Channel.init optsHexNoTS 0 outEmpty bsNone).routeStep gPlain).output.chunks =
      [gPlain.hex, "\n"] ∧
    ((Channel.init optsHexTS 0 outEmpty bsNone).routeStep gPlain).output.flushes = 1 :=
  ⟨rfl, rfl,
   by simpa [Channel.init, optsHexTS, outEmpty] using
     (C8_hex_mode_output_format (Channel.init optsHexTS 0 outEmpty bsNone) gPlain rfl rfl).1,
   by simpa [Channel.init, optsHexNoTS, outEmpty] using
     (C8_hex_mode_output_format (Channel.init optsHexNoTS 0 outEmpty bsNone) gPlain rfl rfl).1,
   by simpa [Channel.init, optsHexTS, outEmpty] using
     (C8_hex_mode_output_format (Channel.init optsHexTS 0 outEmpty bsNone) gPlain rfl rfl).2⟩

/-- C9: each `processBit` call pushes exactly one bit into the assembler and
pops at most one group: with nothing ready the channel only records the pushed
bit, and with one or more groups ready exactly the first is popped and
processed, the rest staying queued. -/
theorem C9_processBit_one_push_at_most_one_pop (ch : Channel) (now : Time) (bit : Bool) :
    ((ch.block_stream.pushBit bit).ready = [] →
      ch.processBit now bit = { ch with block_stream := ch.block_stream.pushBit bit }) ∧
    (∀ g rest, (ch.block_stream.pushBit bit).ready = g :: rest →
      (ch.processBit now bit).block_stream.bitsPushed =
        ch.block_stream.bitsPushed ++ [bit] ∧
      (ch.processBit now bit).block_stream.ready = rest ∧
      ch.processBit now bit =
        Channel.processGroup
          { ch with block_stream := { ch.block_stream.pushBit bit with ready := rest } }
          now g) := by
  constructor
  · intro h
    unfold Channel.processBit
    simp [BlockStream.hasGroupReady, h]
  · intro g rest hready
    have hmain : ch.processBit now bit =
        Channel.processGroup
          { ch with block_stream := { ch.block_stream.pushBit bit with ready := rest } }
          now g := by
      unfold Channel.processBit
      simp [BlockStream.hasGroupReady, BlockStream.popGroup, hready]
    refine ⟨?_, ?_, hmain⟩
    · rw [hmain, processGroup_block_stream]
      simp [BlockStream.pushBit]
    · rw [hmain, processGroup_block_stream]

/-- Witness for C9: an assembler that reports two groups ready after one bit;
`processBit` records the single pushed bit and leaves the second group
queued. -/
theorem C9_processBit_witness :
    ((Channel.init optsB 0 outEmpty bsTwoReady).block_stream.pushBit false).ready =
      [gPlain, gSecond] ∧
    ((Channel.init optsB 0 outEmpty bsTwoReady).processBit 0 false).block_stream.bitsPushed =
      [false] ∧
    ((Channel.init optsB 0 outEmpty bsTwoReady).processBit 0 false).block_stream.ready =
      [gSecond] :=
  ⟨by decide,
   by simpa using
     ((C9_processBit_one_push_at_most_one_pop (Channel.init optsB 0 outEmpty bsTwoReady) 0
       false).2 gPlain [gSecond] (by decide)).1,
   ((C9_processBit_one_push_at_most_one_pop (Channel.init optsB 0 outEmpty bsTwoReady) 0
       false).2 gPlain [gSecond] (by decide)).2.1⟩

/-- C10: with BLER computation enabled, every `processGroup` call — whatever
the group's emptiness or identity code — pushes the group's error count over 4
into the averager exactly once, and the group reaching the routing stage is
annotated with 100 times the resulting running average. -/
theorem C10_bler_pushed_once_and_annotated (ch : Channel) (now : Time) (g : Group)
    (hb : ch.options.bler = true) :
    (ch.processGroup now g).bler_average =
      ch.bler_average.push ((g.getNumErrors : ℚ) / 4) ∧
    (ch.routedGroup now g).bler =
      some (100 * (ch.bler_average.push ((g.getNumErrors : ℚ) / 4)).getAverage) := by
  obtain ⟨ho, -, -, -, -, -, hba⟩ := stampTime_fields ch now g
  obtain ⟨-, hne, -, -, -⟩ := stampTime_group_fields ch now g
  constructor
  · unfold Channel.processGroup
    rw [(routeStep_fields _ _).2.2.2.2.1, (piStep_fields _ _).2.2.2.2.1]
    unfold Channel.blerStep
    rw [ho]
    simp [hb, hba, Group.getNumErrors, hne]
  · unfold Channel.routedGroup Channel.blerStep
    rw [ho]
    simp [hb, hba, Group.setAverageBLER, Group.getNumErrors, hne]

/-- Witness for C10: a BLER-enabled channel processing the group with 2 block
errors pushes 2/4 and annotates with 100 times the new average. -/
theorem C10_bler_witness :
    (Channel.init optsBler 0 outEmpty bsNone).options.bler = true ∧
    ((Channel.init optsBler 0 outEmpty bsNone).processGroup 0 gSecond).bler_average =
      (Channel.init optsBler 0 outEmpty bsNone).bler_average.push
        ((gSecond.getNumErrors : ℚ) / 4) ∧
    ((Channel.init optsBler 0 outEmpty bsNone).routedGroup 0 gSecond).bler =
      some (100 * ((Channel.init optsBler 0 outEmpty bsNone).bler_average.push
        ((gSecond.getNumErrors : ℚ) / 4)).getAverage) :=
  ⟨rfl,
   (C10_bler_pushed_once_and_annotated (Channel.init optsBler 0 outEmpty bsNone) 0 gSecond
     rfl).1,
   (C10_bler_pushed_once_and_annotated (Channel.init optsBler 0 outEmpty bsNone) 0 gSecond
     rfl).2⟩

/-- C2 (counterexample): the claim says a group completing at offset `i` in an
`N`-bit buffer ending at `T` is assigned instant `T − (N−1−i)/1187.5` seconds.
The code truncates the back-dating to whole milliseconds
(`static_cast<int>(... / 1187.5 * 1e3)`): with `N = 2`, `i = 0`, `T = 7` ms
the group is assigned exactly `7` (truncated back-dating `0` ms), while the
claimed formula gives `7 − 1/1187.5·1000` ms, which differs. -/
theorem C2_exact_backdate_counterexample :
    (chModeB.processBits bufTwoBits).station.log.map Group.time = [some 7] ∧
    (7 : ℚ) ≠ 7 - 1 / 1187.5 * 1000 := by
  constructor
  · decide
  · norm_num

/-- C2 (amended): a group completing at bit offset `i` in an `N`-bit buffer
ending at instant `T`, with fewer than 19019 bits between it and the buffer's
end (`N−1−i < 19019` — the range on which the exact integer truncation
`(N−1−i)·10000/11875` coincides with the source's double-precision expression
`static_cast<int>((N−1−i)/1187.5·1e3)`), is assigned, before monotonic
clamping, the instant `T − ((N−1−i)·10000/11875)` milliseconds —
`(N−1−i)/1187.5` seconds truncated to whole milliseconds — and that instant
becomes the new watermark; for the last offset (in particular a 1-bit buffer
at offset 0) the assigned instant is exactly `T`, with zero back-dating. -/
theorem C2_backdate_truncated_to_ms (ch : Channel) (buffer : BitBuffer) (i_bit : ℕ)
    (g : Group) (rest : List Group)
    (hready : (ch.block_stream.pushBit (buffer.bits.getD i_bit false)).ready = g :: rest)
    (hnear : buffer.bits.length - 1 - i_bit < 19019)
    (hmono : ¬ (buffer.time_received -
        (((buffer.bits.length - 1 - i_bit) * 10000 / 11875 : ℕ) : ℤ) <
          ch.last_group_rx_time)) :
    ch.processBitsStep buffer i_bit =
      { Channel.processGroup
          { ch with block_stream :=
              { ch.block_stream.pushBit (buffer.bits.getD i_bit false) with ready := rest } }
          0 (g.setTime (buffer.time_received -
              (((buffer.bits.length - 1 - i_bit) * 10000 / 11875 : ℕ) : ℤ)))
        with last_group_rx_time := buffer.time_received -
          (((buffer.bits.length - 1 - i_bit) * 10000 / 11875 : ℕ) : ℤ) } ∧
    (i_bit = buffer.bits.length - 1 →
      buffer.time_received -
          (((buffer.bits.length - 1 - i_bit) * 10000 / 11875 : ℕ) : ℤ) =
        buffer.time_received) := by
  constructor
  · unfold Channel.processBitsStep
    simp only [BlockStream.hasGroupReady, BlockStream.popGroup, hready, List.isEmpty_cons,
      Bool.not_false, if_true, List.headD_cons, List.tail_cons, hmono, if_false,
      eq_self_iff_true, ite_true, ite_false]
  · intro h
    subst h
    simp

/-- Witness for C2 (amended): a 1-bit buffer ending at 3 ms; the completed
group is stamped exactly 3 ms (zero back-dating) and the watermark becomes
3 ms. -/
theorem C2_backdate_witness :
    (chModeB.block_stream.pushBit (bufOneBit.bits.getD 0 false)).ready = [gPlain] ∧
    bufOneBit.bits.length - 1 - 0 < 19019 ∧
    ¬ (bufOneBit.time_received -
        (((bufOneBit.bits.length - 1 - 0) * 10000 / 11875 : ℕ) : ℤ) <
          chModeB.last_group_rx_time) ∧
    (chModeB.processBitsStep bufOneBit 0).last_group_rx_time = 3 ∧
    (chModeB.processBitsStep bufOneBit 0).station.log.map Group.time = [some 3] := by
  refine ⟨by decide, by decide, by decide, ?_, ?_⟩ <;>
    · rw [(C2_backdate_truncated_to_ms chModeB bufOneBit 0 gPlain [] (by decide)
        (by decide) (by decide)).1]
      decide

/-- C3: in the Mode-B loop body, when the back-dated instant computed for a
completed group lies before the watermark (the previously emitted group's
instant), the group is stamped with exactly the watermark — never anything
earlier — and that clamped value is stored back as the new watermark. -/
theorem C3_modeB_clamped_to_watermark (ch : Channel) (buffer : BitBuffer) (i_bit : ℕ)
    (g : Group) (rest : List Group)
    (hready : (ch.block_stream.pushBit (buffer.bits.getD i_bit false)).ready = g :: rest)
    (hlt : buffer.time_received -
        (((buffer.bits.length - 1 - i_bit) * 10000 / 11875 : ℕ) : ℤ) <
          ch.last_group_rx_time) :
    ch.processBitsStep buffer i_bit =
      { Channel.processGroup
          { ch with block_stream :=
              { ch.block_stream.pushBit (buffer.bits.getD i_bit false) with ready := rest } }
          0 (g.setTime ch.last_group_rx_time)
        with last_group_rx_time := ch.last_group_rx_time } := by
  unfold Channel.processBitsStep
  simp only [BlockStream.hasGroupReady, BlockStream.popGroup, hready, List.isEmpty_cons,
    Bool.not_false, if_true, List.headD_cons, List.tail_cons, hlt, if_true,
    eq_self_iff_true, ite_true, ite_false]

/-- Witness for C3: a 1-bit buffer ending at 0 ms on a channel whose watermark
is 5 ms; the computed instant 0 lies before the watermark, the group is
emitted at 5 ms and the watermark stays 5 ms. -/
theorem C3_clamp_witness :
    (chHighWatermark.block_stream.pushBit (bufZero.bits.getD 0 false)).ready = [gPlain] ∧
    (bufZero.time_received -
        (((bufZero.bits.length - 1 - 0) * 10000 / 11875 : ℕ) : ℤ) <
          chHighWatermark.last_group_rx_time) ∧
    (chHighWatermark.processBitsStep bufZero 0).last_group_rx_time = 5 ∧
    (chHighWatermark.processBitsStep bufZero 0).station.log.map Group.time = [some 5] := by
  refine ⟨by decide, by decide, ?_, ?_⟩ <;>
    · rw [C3_modeB_clamped_to_watermark chHighWatermark bufZero 0 gPlain [] (by decide)
        (by decide)]
      decide

end Redsea
